import Mathlib

/-!
Verification development for a Rick-and-Morty API gateway:
a sliding-window per-client rate limiter (`rate_limiter.py`) and an
upstream HTTP client with retry/backoff, pagination and filter
serialization (`client.py`).

Timestamps (`time.time()` values, seconds since the epoch) are
modelled as integers: every boundary the code tests (`< 60`,
`> 300`, `% 300 < 1`) falls on whole seconds in all the behaviours
under scrutiny, and none of the properties distinguishes sub-second
instants.  HTTP traffic is modelled as scripted response functions,
and the retry / pagination loops as fuel-indexed recursion where the
fuel is exactly the loop bound of the source.
-/

set_option autoImplicit false
set_option maxRecDepth 8000

/-! ## Rate limiter embedding (`rate_limiter.py`) -/

/-- The per-client request map: `self.requests`, a Python dict from IP
string to list of request timestamps, modelled as an insertion-ordered
association list (Python dicts preserve insertion order). -/
abbrev ReqMap := List (String × List ℤ)

/-- Dict lookup: the first entry with the given key, if any. -/
def lookupIp (m : ReqMap) (ip : String) : Option (List ℤ) :=
  match m with
  | [] => none
  | p :: rest => if p.1 == ip then some p.2 else lookupIp rest ip

/-- Dict assignment `self.requests[ip] = l`: replaces the first entry
with this key in place, or appends a new entry (insertion order). -/
def setIp (m : ReqMap) (ip : String) (l : List ℤ) : ReqMap :=
  match m with
  | [] => [(ip, l)]
  | p :: rest => if p.1 == ip then (ip, l) :: rest else p :: setIp rest ip l

/-- Lines 13-14 of `rate_limiter.py`:
`if ip not in self.requests: self.requests[ip] = []`. -/
def initIp (m : ReqMap) (ip : String) : ReqMap :=
  match lookupIp m ip with
  | some _ => m
  | none => setIp m ip []

/-- Line 17 of `rate_limiter.py`: the pruning comprehension
`[ts for ts in self.requests[ip] if current_time - ts < 60]`. -/
def pruneWindow (now : ℤ) (l : List ℤ) : List ℤ :=
  l.filter (fun ts => decide (now - ts < 60))

/-- Python `max(timestamps)` (the source only calls it on nonempty
lists; the `[]` case is arbitrary). -/
def pyMax (l : List ℤ) : ℤ :=
  match l with
  | [] => 0
  | x :: xs => xs.foldl max x

/-- `SimpleRateLimiter.__init__`: the limit defaults to 30 requests
per minute and the request map starts empty. -/
structure SimpleRateLimiter where
  requests_per_minute : ℕ := 30
  requests : ReqMap := []
deriving DecidableEq, Repr

/-- `SimpleRateLimiter._cleanup` (lines 32-42 of `rate_limiter.py`):
delete every IP whose timestamp list is empty or whose most recent
timestamp (`max(timestamps)`) is more than 300 seconds old.  Deleting
from a dict keeps the order of the remaining entries, i.e. a filter. -/
def SimpleRateLimiter.cleanup (now : ℤ) (m : ReqMap) : ReqMap :=
  m.filter (fun p => !(p.2.isEmpty || decide (300 < now - pyMax p.2)))

/-- `SimpleRateLimiter.is_rate_limited` (lines 9-30 of
`rate_limiter.py`).  `now` stands for `time.time()`; the same instant
is passed to `_cleanup` (the source re-reads the clock there, a few
microseconds later).  `now % 300` is Python's floored modulus, which
on integers is `Int.emod`.  Returns the boolean result (`true` = rate
limited, i.e. rejected) together with the mutated limiter state. -/
def SimpleRateLimiter.is_rate_limited (rl : SimpleRateLimiter) (now : ℤ) (ip : String) :
    Bool × SimpleRateLimiter :=
  let m0 := initIp rl.requests ip
  let pruned := pruneWindow now ((lookupIp m0 ip).getD [])
  let m1 := setIp m0 ip pruned
  if rl.requests_per_minute ≤ pruned.length then
    (true, ⟨rl.requests_per_minute, m1⟩)
  else
    let m2 := setIp m1 ip (pruned ++ [now])
    let m3 := if now % 300 < 1 then SimpleRateLimiter.cleanup now m2 else m2
    (false, ⟨rl.requests_per_minute, m3⟩)

/-- `n` successive `is_rate_limited` calls at the same instant for the
same IP; the boolean is `true` iff every one of them was allowed. -/
def callsAllAllowed (rl : SimpleRateLimiter) (now : ℤ) (ip : String) : ℕ → Bool × SimpleRateLimiter
  | 0 => (true, rl)
  | n + 1 =>
    let r := rl.is_rate_limited now ip
    let rest := callsAllAllowed r.2 now ip n
    (!r.1 && rest.1, rest.2)

/-! ## Upstream client embedding (`client.py`) -/

/-- Python `str.split(sep)` for a one-character separator: always
nonempty, `"".split(c) == [""]`. -/
def pySplit (sep : Char) : List Char → List (List Char)
  | [] => [[]]
  | c :: rest =>
    match pySplit sep rest with
    | [] => if c = sep then [[], []] else [[c]]
    | h :: t => if c = sep then [] :: h :: t else (c :: h) :: t

/-- Python `"&".join(parts)` specialised to a one-character glue. -/
def pyJoin (glue : Char) : List (List Char) → List Char
  | [] => []
  | [p] => p
  | p :: q :: t => p ++ glue :: pyJoin glue (q :: t)

/-- One step of Python `str.replace(old, new)`: scan left to right,
replacing each (non-overlapping) occurrence of `old`.  The fuel is the
length of the string being scanned; each step consumes at least one
character, so `pyReplace` below always supplies enough. -/
def pyReplaceAux (old new : List Char) : ℕ → List Char → List Char
  | 0, s => s
  | _ + 1, [] => []
  | fuel + 1, c :: rest =>
    if old.isPrefixOf (c :: rest) && !old.isEmpty then
      new ++ pyReplaceAux old new fuel (List.drop (old.length - 1) rest)
    else
      c :: pyReplaceAux old new fuel rest

/-- Python `s.replace(old, new)` (for nonempty `old`, as in the source:
the pattern is the base URL plus a slash). -/
def pyReplace (s old new : List Char) : List Char := pyReplaceAux old new s.length s

/-- `'0'..'9'` digit for a value below ten. -/
def digitChar (d : ℕ) : Char := Char.ofNat (48 + d)

/-- Decimal rendering of a natural number, as in Python's f-string
`f"character/{character_id}"`.  Fuel-indexed base-10 expansion;
`natToStr` supplies fuel `n + 1`, which is always sufficient since the
argument shrinks by a factor of ten each step. -/
def natToStrAux : ℕ → ℕ → List Char
  | 0, _ => []
  | fuel + 1, n => if n < 10 then [digitChar n] else natToStrAux fuel (n / 10) ++ [digitChar (n % 10)]

/-- Python `str(n)` for a natural number. -/
def natToStr (n : ℕ) : List Char := natToStrAux (n + 1) n

/-- Python `str.isdigit` restricted to ASCII: nonempty and all decimal
digits (the ids the service produces are plain decimal). -/
def pyIsDigitChar (c : Char) : Bool := 48 ≤ c.toNat && c.toNat ≤ 57

/-- Python `s.isdigit()`. -/
def pyIsDigit (s : List Char) : Bool := !s.isEmpty && s.all pyIsDigitChar

/-- Python `int(s)` on a digit string. -/
def pyDigitsToNat (s : List Char) : ℕ := s.foldl (fun acc c => acc * 10 + (c.toNat - 48)) 0

/-- The typed error taxonomy raised by `_make_request`: `NotFoundError`
(with the resource type and optional id parsed from the endpoint),
`RateLimitError` (with its retry-after value), `ServerError`, generic
`APIError` (status code and message), and the propagated transport /
timeout exceptions (`aiohttp.ClientError`, `asyncio.TimeoutError`). -/
inductive ApiError where
  | notFound (resource_type : List Char) (resource_id : Option ℕ)
  | rateLimit (retry_after : ℕ)
  | serverError
  | apiError (status_code : ℕ) (message : List Char)
  | transport
deriving DecidableEq, Repr

/-- The JSON fields of an upstream response body that the client ever
reads: the `"error"` message of error bodies, and the `"results"` list
and `"info"/"next"` link of collection bodies.  `none` means the field
is missing (for `next`, missing or JSON `null` — the code treats both
the same via `.get`).  Result objects themselves are opaque and
modelled as numeric tags. -/
structure Body where
  error : Option (List Char) := none
  results : Option (List ℕ) := none
  next : Option (List Char) := none
deriving DecidableEq, Repr

/-- One observed outcome of `self._session.get(url)`: an HTTP response
with its status code, optional integer `Retry-After` header and parsed
JSON body, or a transport / timeout exception. -/
inductive Resp where
  | status (code : ℕ) (retryAfter : Option ℕ) (body : Body)
  | transportError
deriving DecidableEq, Repr

/-- The retry loop of `RickAndMortyClient._make_request` (lines 91-138
of `client.py`): `for attempt in range(1, self._max_retries + 1)`.
`resps attempt` is the response the wire delivers on that attempt.
`rem` is the number of loop iterations remaining (`makeRequest` starts
it at `max_retries`); when the range is exhausted the Python function
falls off the loop and returns `None`, hence the `Option` result.  The
second component records the argument of each `asyncio.sleep` in
order. -/
def attemptLoop (resps : ℕ → Resp) (resource_type : List Char) (resource_id : Option ℕ)
    (max_retries : ℕ) : ℕ → ℕ → Option (Except ApiError Body) × List ℕ
  | _, 0 => (none, [])
  | attempt, rem + 1 =>
    match resps attempt with
    | .status code retryAfterHdr body =>
      if code = 429 then
        let retry_after := retryAfterHdr.getD 60
        if attempt = max_retries then
          (some (.error (.rateLimit retry_after)), [])
        else
          let r := attemptLoop resps resource_type resource_id max_retries (attempt + 1) rem
          (r.1, retry_after :: r.2)
      else if code = 404 then
        (some (.error (.notFound resource_type resource_id)), [])
      else if 500 ≤ code ∧ code < 600 then
        if attempt = max_retries then
          (some (.error .serverError), [])
        else
          let r := attemptLoop resps resource_type resource_id max_retries (attempt + 1) rem
          (r.1, 2 ^ attempt :: r.2)
      else if code ≠ 200 then
        (some (.error (.apiError code (body.error.getD ("Unknown error".data)))), [])
      else
        (some (.ok body), [])
    | .transportError =>
      if attempt < max_retries then
        let r := attemptLoop resps resource_type resource_id max_retries (attempt + 1) rem
        (r.1, 2 ^ attempt :: r.2)
      else
        (some (.error .transport), [])

/-- `RickAndMortyClient._make_request(endpoint)` with the session set
(lines 63-138 of `client.py`): parse the resource type (first `/`
segment) and numeric id (second segment if purely decimal) for error
messages, then run the retry loop starting at attempt 1. -/
def makeRequest (resps : ℕ → Resp) (endpoint : List Char) (max_retries : ℕ) :
    Option (Except ApiError Body) × List ℕ :=
  let parts := pySplit '/' endpoint
  let resource_type := parts.headI
  let resource_id :=
    match parts.get? 1 with
    | some s => if pyIsDigit s then some (pyDigitsToNat s) else none
    | none => none
  attemptLoop resps resource_type resource_id max_retries 1 max_retries

/-- `BASE_URL = "https://rickandmortyapi.com/api"`. -/
def BASE_URL : List Char := "https://rickandmortyapi.com/api".data

/-- Outcome of `get_all_resources`: a (possibly empty) resource list,
an uncaught error, the `TypeError` that membership-testing a `None`
page would raise (only reachable with `max_retries = 0`), or fuel
exhaustion of the model's page bound. -/
inductive FetchAllResult where
  | ok (resources : List ℕ)
  | err (e : ApiError)
  | crash
  | fuelOut
deriving DecidableEq, Repr

/-- The pagination loop of `RickAndMortyClient.get_all_resources`
(lines 150-177 of `client.py`).  `env callIdx` scripts the wire
responses of the `callIdx`-th page request (0-based).  `next_url` is
Python's `next_url` variable (`none` = `None`; the loop guard
`while next_url` is falsy for both `None` and the empty string).  The
`try` surrounds the whole loop, and `except NotFoundError` returns
`[]`; any other error propagates.  `fuel` bounds the number of loop
iterations the model can take. -/
def getAllGo (env : ℕ → ℕ → Resp) (max_retries : ℕ) :
    ℕ → List ℕ → Option (List Char) → ℕ → FetchAllResult
  | _, _, _, 0 => .fuelOut
  | callIdx, acc, next_url, fuel + 1 =>
    match next_url with
    | none => .ok acc
    | some u =>
      if u = [] then .ok acc
      else
        match (makeRequest (env callIdx) u max_retries).1 with
        | none => .crash
        | some (.error (.notFound _ _)) => .ok []
        | some (.error e) => .err e
        | some (.ok data) =>
          match data.results with
          | none => .ok acc
          | some rs =>
            match data.next with
            | none => getAllGo env max_retries (callIdx + 1) (acc ++ rs) none fuel
            | some next_page =>
              if next_page = [] then
                getAllGo env max_retries (callIdx + 1) (acc ++ rs) none fuel
              else
                getAllGo env max_retries (callIdx + 1) (acc ++ rs)
                  (some (pyReplace next_page (BASE_URL ++ ['/']) [])) fuel

/-- `RickAndMortyClient.get_all_resources(resource_type)` (lines
140-177 of `client.py`): start the pagination loop at the resource
type endpoint with an empty accumulator. -/
def get_all_resources (env : ℕ → ℕ → Resp) (max_retries : ℕ) (resource_type : List Char)
    (fuel : ℕ) : FetchAllResult :=
  getAllGo env max_retries 0 [] (some resource_type) fuel

/-- The endpoint built by `get_character`: `f"character/{character_id}"`. -/
def get_character_endpoint (character_id : ℕ) : List Char :=
  "character/".data ++ natToStr character_id

/-- The endpoint built by `get_location`: `f"location/{location_id}"`. -/
def get_location_endpoint (location_id : ℕ) : List Char :=
  "location/".data ++ natToStr location_id

/-- The endpoint built by `get_episode`: `f"episode/{episode_id}"`. -/
def get_episode_endpoint (episode_id : ℕ) : List Char :=
  "episode/".data ++ natToStr episode_id

/-- The query-string serialization of `get_characters` (lines 193-198
of `client.py`):
`"&".join(f"{k}={v}" for k, v in filters.items() if v is not None)`.
Filter values are taken already rendered to strings (the f-string
applies `str` to each value). -/
def serializeFilters (filters : List (List Char × Option (List Char))) : List Char :=
  pyJoin '&' (filters.filterMap (fun p =>
    match p.2 with
    | some v => some (p.1 ++ '=' :: v)
    | none => none))

/-- Modelled from the spec: the repository contains no query-string
parser — the round-trip property of §8 refers to parsing "by a test
double upstream".  Standard query parsing: split the string on `&`,
split each pair at the first `=` (a pair without `=` becomes a key
with empty value), empty query = empty mapping. -/
def splitFirst (sep : Char) : List Char → Option (List Char × List Char)
  | [] => none
  | c :: rest =>
    if c = sep then some ([], rest)
    else (splitFirst sep rest).map (fun p => (c :: p.1, p.2))

/-- Modelled from the spec: the test-double query parser (see
`splitFirst`). -/
def parseQuery (s : List Char) : List (List Char × Option (List Char)) :=
  if s = [] then []
  else (pySplit '&' s).map (fun part =>
    match splitFirst '=' part with
    | some kv => (kv.1, some kv.2)
    | none => (part, some []))

/-- Modelled from the spec: "strip the known base URL prefix to obtain
the next endpoint" — remove the base URL plus slash when it is a
prefix of the link, leave the link unchanged otherwise.  Kept for
comparison with the source's `next_page.replace(BASE_URL + "/", "")`. -/
def specStripBase (link : List Char) : List Char :=
  if (BASE_URL ++ ['/']).isPrefixOf link then List.drop (BASE_URL ++ ['/']).length link
  else link

deriving instance DecidableEq for Except

/-! ## Concrete scenarios used by the claims -/

/-- A body with no fields of interest (5xx and 429 responses). -/
def emptyBody : Body := ⟨none, none, none⟩

/-- A successful singular-resource body. -/
def demoBody : Body := ⟨none, some [7], none⟩

/-- Wire script `[500, 500, 200]`. -/
def resps552 : ℕ → Resp :=
  fun a => if a = 3 then .status 200 none demoBody else .status 500 none emptyBody

/-- Wire script `[500, 500, 500, ...]`. -/
def resps555 : ℕ → Resp := fun _ => .status 500 none emptyBody

/-- Wire script: 429 with `Retry-After: 5`, then 200. -/
def resps429then200 : ℕ → Resp :=
  fun a => if a = 1 then .status 429 (some 5) emptyBody else .status 200 none demoBody

/-- Wire script: 429 with no `Retry-After` header. -/
def resps429bare : ℕ → Resp := fun _ => .status 429 none emptyBody

/-- Wire script: every attempt yields 404. -/
def resps404 : ℕ → Resp := fun _ => .status 404 none emptyBody

/-- Three pages of twenty distinct results each, with `"next"` links
on pages 1 and 2 only. -/
def pages3Env : ℕ → ℕ → Resp :=
  fun c _ =>
    if c = 0 then
      .status 200 none ⟨none, some (List.range' 0 20),
        some ("https://rickandmortyapi.com/api/character?page=2".data)⟩
    else if c = 1 then
      .status 200 none ⟨none, some (List.range' 20 20),
        some ("https://rickandmortyapi.com/api/character?page=3".data)⟩
    else
      .status 200 none ⟨none, some (List.range' 40 20), none⟩

/-- A first page with twenty results and a next link, whose second
page request yields 404. -/
def secondPage404Env : ℕ → ℕ → Resp :=
  fun c _ =>
    if c = 0 then
      .status 200 none ⟨none, some (List.range' 0 20),
        some ("https://rickandmortyapi.com/api/character?page=2".data)⟩
    else
      .status 404 none emptyBody

/-- A first page request that yields 404 outright. -/
def firstPage404Env : ℕ → ℕ → Resp := fun _ _ => .status 404 none emptyBody

/-- A `"next"` link in which the base URL occurs both as the prefix
and again in the middle. -/
def evilNext : List Char :=
  "https://rickandmortyapi.com/api/abchttps://rickandmortyapi.com/api/def".data

/-! ## Association-map lemmas -/

theorem lookupIp_setIp_self (m : ReqMap) (ip : String) (l : List ℤ) :
    lookupIp (setIp m ip l) ip = some l := by
  induction m with
  | nil => simp [setIp, lookupIp]
  | cons p rest ih =>
    cases hb : p.1 == ip <;> simp [setIp, lookupIp, hb, ih]

theorem setIp_setIp (m : ReqMap) (ip : String) (a b : List ℤ) :
    setIp (setIp m ip a) ip b = setIp m ip b := by
  induction m with
  | nil => simp [setIp]
  | cons p rest ih =>
    cases hb : p.1 == ip <;> simp [setIp, hb, ih]

theorem lookupIp_initIp_self (m : ReqMap) (ip : String) :
    lookupIp (initIp m ip) ip = some ((lookupIp m ip).getD []) := by
  unfold initIp
  cases h : lookupIp m ip with
  | none => simp [lookupIp_setIp_self]
  | some l => simp [h]

theorem setIp_initIp (m : ReqMap) (ip : String) (l : List ℤ) :
    setIp (initIp m ip) ip l = setIp m ip l := by
  unfold initIp
  cases h : lookupIp m ip with
  | none => simp [setIp_setIp]
  | some _ => rfl

theorem initIp_setIp (m : ReqMap) (ip : String) (l : List ℤ) :
    initIp (setIp m ip l) ip = setIp m ip l := by
  unfold initIp
  simp [lookupIp_setIp_self]

/-- Filtering an updated map still finds the updated entry, provided
the filter keeps it: the entries preceding the first occurrence of the
key are keyed differently, so they cannot shadow it. -/
theorem lookupIp_filter_setIp (pred : String × List ℤ → Bool) (m : ReqMap) (ip : String)
    (v : List ℤ) (h : pred (ip, v) = true) :
    lookupIp (List.filter pred (setIp m ip v)) ip = some v := by
  induction m with
  | nil => simp [setIp, List.filter, h, lookupIp]
  | cons p rest ih =>
    cases hb : p.1 == ip with
    | true => simp [setIp, hb, List.filter, h, lookupIp]
    | false =>
      simp only [setIp, hb, Bool.false_eq_true, if_false, List.filter]
      cases hp : pred p with
      | true => simp [lookupIp, hb, ih]
      | false => exact ih

/-! ## Pruning and max lemmas -/

theorem mem_pruneWindow (now ts : ℤ) (l : List ℤ) :
    ts ∈ pruneWindow now l ↔ ts ∈ l ∧ now - ts < 60 := by
  simp [pruneWindow, List.mem_filter]

/-- Pruning at a later instant subsumes pruning at an earlier one. -/
theorem pruneWindow_pruneWindow (t1 t2 : ℤ) (l : List ℤ) (h : t1 ≤ t2) :
    pruneWindow t2 (pruneWindow t1 l) = pruneWindow t2 l := by
  induction l with
  | nil => rfl
  | cons x xs ih =>
    by_cases h2 : t2 - x < 60
    · have h1 : t1 - x < 60 := lt_of_le_of_lt (by omega) h2
      simp [pruneWindow, List.filter, h1, h2] at ih ⊢
      exact ih
    · by_cases h1 : t1 - x < 60 <;> simp [pruneWindow, List.filter, h1, h2] at ih ⊢ <;> exact ih

theorem le_foldl_max (xs : List ℤ) (b : ℤ) : b ≤ xs.foldl max b := by
  induction xs generalizing b with
  | nil => exact le_refl b
  | cons y ys ih => exact le_trans (le_max_left b y) (ih (max b y))

theorem mem_le_foldl_max (xs : List ℤ) (b x : ℤ) (hx : x ∈ xs) : x ≤ xs.foldl max b := by
  induction xs generalizing b with
  | nil => cases hx
  | cons y ys ih =>
    rcases List.mem_cons.mp hx with rfl | hmem
    · exact le_trans (le_max_right b x) (le_foldl_max ys (max b x))
    · exact ih (max b y) hmem

theorem le_pyMax (l : List ℤ) (x : ℤ) (hx : x ∈ l) : x ≤ pyMax l := by
  cases l with
  | nil => cases hx
  | cons y ys =>
    rcases List.mem_cons.mp hx with rfl | hmem
    · exact le_foldl_max ys x
    · exact mem_le_foldl_max ys y x hmem

theorem foldl_max_mem (xs : List ℤ) (b : ℤ) : xs.foldl max b = b ∨ xs.foldl max b ∈ xs := by
  induction xs generalizing b with
  | nil => exact Or.inl rfl
  | cons y ys ih =>
    rcases ih (max b y) with h | h
    · rcases max_choice b y with hm | hm
      · exact Or.inl (by rw [List.foldl_cons, h, hm])
      · exact Or.inr (by rw [List.foldl_cons, h, hm]; exact List.mem_cons_self y ys)
    · exact Or.inr (List.mem_cons_of_mem y h)

theorem pyMax_mem (l : List ℤ) (h : l ≠ []) : pyMax l ∈ l := by
  cases l with
  | nil => exact absurd rfl h
  | cons y ys =>
    rcases foldl_max_mem ys y with h1 | h1
    · rw [pyMax, h1]; exact List.mem_cons_self y ys
    · exact List.mem_cons_of_mem y h1

/-! ## String-manipulation lemmas -/

theorem pySplit_ne_nil (sep : Char) (s : List Char) : pySplit sep s ≠ [] := by
  cases s with
  | nil => simp [pySplit]
  | cons c rest =>
    cases h : pySplit sep rest with
    | nil => by_cases hc : c = sep <;> simp [pySplit, h, hc]
    | cons a t => by_cases hc : c = sep <;> simp [pySplit, h, hc]

theorem pySplit_of_not_mem (sep : Char) (a : List Char) (h : sep ∉ a) : pySplit sep a = [a] := by
  induction a with
  | nil => rfl
  | cons c rest ih =>
    have hc : ¬ c = sep := fun hcc => h (hcc ▸ List.mem_cons_self c rest)
    have hrest : sep ∉ rest := fun hm => h (List.mem_cons_of_mem c hm)
    simp [pySplit, ih hrest, hc]

theorem pySplit_append (sep : Char) (a r : List Char) (h : sep ∉ a) :
    pySplit sep (a ++ sep :: r) = a :: pySplit sep r := by
  induction a with
  | nil =>
    cases hr : pySplit sep r with
    | nil => exact absurd hr (pySplit_ne_nil sep r)
    | cons x t => simp [pySplit, hr]
  | cons c rest ih =>
    have hc : ¬ c = sep := fun hcc => h (hcc ▸ List.mem_cons_self c rest)
    have hrest : sep ∉ rest := fun hm => h (List.mem_cons_of_mem c hm)
    simp only [List.cons_append, pySplit]
    rw [show List.append rest (sep :: r) = rest ++ sep :: r from rfl, ih hrest]
    simp [hc]

theorem splitFirst_append (sep : Char) (k v : List Char) (h : sep ∉ k) :
    splitFirst sep (k ++ sep :: v) = some (k, v) := by
  induction k with
  | nil => simp [splitFirst]
  | cons c rest ih =>
    have hc : ¬ c = sep := fun hcc => h (hcc ▸ List.mem_cons_self c rest)
    have hrest : sep ∉ rest := fun hm => h (List.mem_cons_of_mem c hm)
    simp [splitFirst, hc, ih hrest]

/-- `str.replace` leaves a string alone when the pattern occurs
nowhere in it (checked at every start position). -/
theorem pyReplaceAux_no_occur (old e : List Char)
    (h : ∀ i < e.length, old.isPrefixOf (e.drop i) = false) :
    ∀ fuel, pyReplaceAux old [] fuel e = e := by
  induction e with
  | nil => intro fuel; cases fuel <;> rfl
  | cons c rest ih =>
    intro fuel
    cases fuel with
    | zero => rfl
    | succ f =>
      have h0 : old.isPrefixOf (c :: rest) = false := by
        have := h 0 (by simp)
        simp at this
        exact this
      have hrest : ∀ i < rest.length, old.isPrefixOf (rest.drop i) = false := by
        intro i hi
        have := h (i + 1) (by simpa using Nat.succ_lt_succ hi)
        simp at this
        exact this
      simp [pyReplaceAux, h0, ih hrest]

/-- When the link is the base pattern followed by an endpoint that
contains no further occurrence of the pattern, `str.replace` with the
empty replacement is exactly prefix-stripping. -/
theorem pyReplace_strip (old e : List Char) (hne : old ≠ [])
    (h : ∀ i < e.length, old.isPrefixOf (e.drop i) = false) :
    pyReplace (old ++ e) old [] = e := by
  cases old with
  | nil => exact absurd rfl hne
  | cons o ot =>
    have hpre : (o :: ot).isPrefixOf ((o :: ot) ++ e) = true := by
      rw [List.isPrefixOf_iff_prefix]; exact List.prefix_append _ e
    have hdrop : List.drop ((o :: ot).length - 1) (ot ++ e) = e := by
      simp only [List.length_cons, Nat.add_sub_cancel]
      exact List.drop_left ot e
    have hpre' : (o :: ot).isPrefixOf (o :: (ot ++ e)) = true := by
      simp only [List.cons_append] at hpre
      exact hpre
    simp only [pyReplace, List.length_append, List.cons_append, List.length_cons, pyReplaceAux,
      List.append_eq, Nat.add_sub_cancel, hpre', List.isEmpty_cons, Bool.not_false, Bool.and_true,
      if_true, List.nil_append, List.drop_left, hdrop]
    exact pyReplaceAux_no_occur (o :: ot) e h _

/-! ## Decimal-rendering lemmas -/

theorem digitChar_facts : ∀ d < 10, (digitChar d).toNat = 48 + d ∧ pyIsDigitChar (digitChar d) = true := by
  decide

theorem natToStrAux_spec : ∀ fuel n, n < fuel →
    pyDigitsToNat (natToStrAux fuel n) = n ∧ natToStrAux fuel n ≠ [] ∧
      ∀ c ∈ natToStrAux fuel n, pyIsDigitChar c = true := by
  intro fuel
  induction fuel with
  | zero => intro n hn; omega
  | succ f ih =>
    intro n hn
    by_cases h10 : n < 10
    · have hd := digitChar_facts n h10
      refine ⟨?_, by simp [natToStrAux, h10], ?_⟩
      · simp [natToStrAux, h10, pyDigitsToNat, hd.1]
      · intro c hc
        simp only [natToStrAux, h10, if_true, List.mem_singleton] at hc
        exact hc ▸ hd.2
    · have hdiv : n / 10 < f := by
        have : n / 10 < n := Nat.div_lt_self (by omega) (by omega)
        omega
      have ihd := ih (n / 10) hdiv
      have hd := digitChar_facts (n % 10) (Nat.mod_lt n (by omega))
      refine ⟨?_, by simp [natToStrAux, h10], ?_⟩
      · simp only [natToStrAux, h10, if_false, pyDigitsToNat, List.foldl_append]
        have : (natToStrAux f (n / 10)).foldl (fun acc c => acc * 10 + (c.toNat - 48)) 0 = n / 10 :=
          ihd.1
        simp only [List.foldl_cons, List.foldl_nil, this, hd.1]
        omega
      · intro c hc
        simp only [natToStrAux, h10, if_false, List.mem_append, List.mem_singleton] at hc
        rcases hc with hc | rfl
        · exact ihd.2.2 c hc
        · exact hd.2

theorem natToStr_spec (n : ℕ) :
    pyDigitsToNat (natToStr n) = n ∧ pyIsDigit (natToStr n) = true ∧ '/' ∉ natToStr n := by
  have h := natToStrAux_spec (n + 1) n (Nat.lt_succ_self n)
  refine ⟨h.1, ?_, ?_⟩
  · simp only [pyIsDigit, natToStr, Bool.and_eq_true, Bool.not_eq_true', List.isEmpty_eq_false,
      List.all_eq_true]
    exact ⟨h.2.1, fun c hc => h.2.2 c hc⟩
  · intro hmem
    have := h.2.2 '/' hmem
    simp [pyIsDigitChar] at this

/-- Any 404 on the first attempt makes `_make_request` raise
`NotFoundError` at once (whatever the endpoint parses to), with no
sleeps. -/
theorem makeRequest_404 (resps : ℕ → Resp) (endpoint : List Char) (mr : ℕ) (hdr : Option ℕ)
    (body : Body) (hresp : resps 1 = .status 404 hdr body) :
    ∃ rt rid, makeRequest resps endpoint (mr + 1) = (some (.error (.notFound rt rid)), []) := by
  refine ⟨(pySplit '/' endpoint).headI,
    (match (pySplit '/' endpoint).get? 1 with
      | some s => if pyIsDigit s then some (pyDigitsToNat s) else none
      | none => none), ?_⟩
  simp [makeRequest, attemptLoop, hresp]

/-! ## Claim theorems -/

/-- C10: if `_make_request` is called with `max_retries = 0` (and a
session set), the retry loop body never executes — the result is
Python `None` with no sleeps, identically in the wire behaviour, so no
HTTP attempt is consulted and no error is raised; the documented
contract (JSON dict or typed error) therefore needs
`max_retries ≥ 1`. -/
theorem c10_zero_retries_returns_none (resps : ℕ → Resp) (endpoint : List Char) :
    makeRequest resps endpoint 0 = (none, []) := rfl

/-- C2: a 5xx response on a non-final attempt sleeps `2 ^ attempt`
seconds (attempts start at 1) and retries; on the final allowed
attempt it raises `ServerError` with no further retries.  Concretely,
responses `[500, 500, 200]` with `max_retries = 3` give exactly the
backoff sleeps `[2, 4]` and then the parsed 200 body, and
`[500, 500, 500]` give a `ServerError` failure. -/
theorem c2_5xx_backoff :
    (∀ (resps : ℕ → Resp) (rt : List Char) (rid : Option ℕ) (mr a rem code : ℕ)
        (hdr : Option ℕ) (body : Body),
        resps a = .status code hdr body → 500 ≤ code → code < 600 → a ≠ mr →
        attemptLoop resps rt rid mr a (rem + 1)
          = ((attemptLoop resps rt rid mr (a + 1) rem).1,
             2 ^ a :: (attemptLoop resps rt rid mr (a + 1) rem).2))
    ∧ (∀ (resps : ℕ → Resp) (rt : List Char) (rid : Option ℕ) (mr a rem code : ℕ)
        (hdr : Option ℕ) (body : Body),
        resps a = .status code hdr body → 500 ≤ code → code < 600 → a = mr →
        attemptLoop resps rt rid mr a (rem + 1) = (some (.error .serverError), []))
    ∧ makeRequest resps552 ("character".data) 3 = (some (.ok demoBody), [2, 4])
    ∧ makeRequest resps555 ("character".data) 3 = (some (.error .serverError), [2, 4]) := by
  refine ⟨?_, ?_, by decide, by decide⟩
  · intro resps rt rid mr a rem code hdr body hresp h5 h6 hne
    simp only [attemptLoop, hresp]
    rw [if_neg (by omega : ¬ code = 429), if_neg (by omega : ¬ code = 404),
      if_pos (⟨h5, h6⟩ : 500 ≤ code ∧ code < 600), if_neg hne]
  · intro resps rt rid mr a rem code hdr body hresp h5 h6 heq
    simp only [attemptLoop, hresp]
    rw [if_neg (by omega : ¬ code = 429), if_neg (by omega : ¬ code = 404),
      if_pos (⟨h5, h6⟩ : 500 ≤ code ∧ code < 600), if_pos heq]

/-- Witness for C2 at a concrete input: attempt 1 of 3 on the
all-500 script sleeps `2 ^ 1` and recurses. -/
theorem c2_witness :
    attemptLoop resps555 ("character".data) none 3 1 3
      = ((attemptLoop resps555 ("character".data) none 3 2 2).1,
         2 ^ 1 :: (attemptLoop resps555 ("character".data) none 3 2 2).2) :=
  c2_5xx_backoff.1 resps555 ("character".data) none 3 1 2 500 none emptyBody rfl
    (by decide) (by decide) (by decide)

/-- C4: a 429 response reads the `Retry-After` header with default 60;
on the final allowed attempt it raises `RateLimitError` carrying that
value, otherwise it sleeps exactly the retry-after value (not an
exponential backoff) and retries.  Concretely `Retry-After: 5` on
attempt 1 of 3 sleeps 5 seconds then retries to success, and a bare
429 on the final attempt fails with retry-after 60. -/
theorem c4_429_handling :
    (∀ (resps : ℕ → Resp) (rt : List Char) (rid : Option ℕ) (mr a rem : ℕ)
        (hdr : Option ℕ) (body : Body),
        resps a = .status 429 hdr body → a ≠ mr →
        attemptLoop resps rt rid mr a (rem + 1)
          = ((attemptLoop resps rt rid mr (a + 1) rem).1,
             hdr.getD 60 :: (attemptLoop resps rt rid mr (a + 1) rem).2))
    ∧ (∀ (resps : ℕ → Resp) (rt : List Char) (rid : Option ℕ) (mr a rem : ℕ)
        (hdr : Option ℕ) (body : Body),
        resps a = .status 429 hdr body → a = mr →
        attemptLoop resps rt rid mr a (rem + 1)
          = (some (.error (.rateLimit (hdr.getD 60))), []))
    ∧ makeRequest resps429then200 ("character".data) 3 = (some (.ok demoBody), [5])
    ∧ makeRequest resps429bare ("character".data) 1 = (some (.error (.rateLimit 60)), []) := by
  refine ⟨?_, ?_, by decide, by decide⟩
  · intro resps rt rid mr a rem hdr body hresp hne
    simp [attemptLoop, hresp, hne]
  · intro resps rt rid mr a rem hdr body hresp heq
    subst heq
    simp [attemptLoop, hresp]

/-- Witness for C4 at a concrete input: `Retry-After: 5` on attempt 1
of 3 prepends a 5-second sleep and recurses. -/
theorem c4_witness :
    attemptLoop resps429then200 ("character".data) none 3 1 3
      = ((attemptLoop resps429then200 ("character".data) none 3 2 2).1,
         (some 5).getD 60 :: (attemptLoop resps429then200 ("character".data) none 3 2 2).2) :=
  c4_429_handling.1 resps429then200 ("character".data) none 3 1 2 (some 5) emptyBody rfl
    (by decide)

/-- C3: a 404 from upstream makes FetchOne (`get_character` /
`get_location` / `get_episode` through `_make_request`) fail at once
with `NotFoundError` carrying the resource type and id, with no retry
and no sleep (the result does not consult any later attempt of the
wire script); FetchAll whose very first page request yields 404
returns the empty collection rather than a NotFound failure. -/
theorem c3_fetch_one_vs_fetch_all_404 :
    (∀ (resps : ℕ → Resp) (rtName : List Char) (id9 mr : ℕ) (hdr : Option ℕ) (body : Body),
        '/' ∉ rtName →
        resps 1 = .status 404 hdr body →
        makeRequest resps (rtName ++ '/' :: natToStr id9) (mr + 1)
          = (some (.error (.notFound rtName (some id9))), []))
    ∧ (∀ (resps : ℕ → Resp) (id9 mr : ℕ) (hdr : Option ℕ) (body : Body),
        resps 1 = .status 404 hdr body →
        makeRequest resps (get_character_endpoint id9) (mr + 1)
          = (some (.error (.notFound ("character".data) (some id9))), [])
        ∧ makeRequest resps (get_location_endpoint id9) (mr + 1)
          = (some (.error (.notFound ("location".data) (some id9))), [])
        ∧ makeRequest resps (get_episode_endpoint id9) (mr + 1)
          = (some (.error (.notFound ("episode".data) (some id9))), []))
    ∧ (∀ (env : ℕ → ℕ → Resp) (mr fuel : ℕ) (rt : List Char) (hdr : Option ℕ) (body : Body),
        rt ≠ [] →
        env 0 1 = .status 404 hdr body →
        get_all_resources env (mr + 1) rt (fuel + 1) = .ok []) := by
  have main : ∀ (resps : ℕ → Resp) (rtName : List Char) (id9 mr : ℕ) (hdr : Option ℕ)
      (body : Body), '/' ∉ rtName → resps 1 = .status 404 hdr body →
      makeRequest resps (rtName ++ '/' :: natToStr id9) (mr + 1)
        = (some (.error (.notFound rtName (some id9))), []) := by
    intro resps rtName id9 mr hdr body hslash hresp
    have hspec := natToStr_spec id9
    have hsp : pySplit '/' (rtName ++ '/' :: natToStr id9) = [rtName, natToStr id9] := by
      rw [pySplit_append _ _ _ hslash, pySplit_of_not_mem _ _ hspec.2.2]
    simp only [makeRequest, hsp, List.headI, List.get?, hspec.2.1, if_true, hspec.1]
    simp [attemptLoop, hresp]
  refine ⟨main, ?_, ?_⟩
  · intro resps id9 mr hdr body hresp
    refine ⟨?_, ?_, ?_⟩
    · have h := main resps ("character".data) id9 mr hdr body (by decide) hresp
      simpa [get_character_endpoint, natToStr] using h
    · have h := main resps ("location".data) id9 mr hdr body (by decide) hresp
      simpa [get_location_endpoint, natToStr] using h
    · have h := main resps ("episode".data) id9 mr hdr body (by decide) hresp
      simpa [get_episode_endpoint, natToStr] using h
  · intro env mr fuel rt hdr body hne hresp
    obtain ⟨rt0, rid0, hmk⟩ := makeRequest_404 (env 0) rt mr hdr body hresp
    simp [get_all_resources, getAllGo, hne, hmk]

/-- Witness for C3 at a concrete input: `character/42` under an
all-404 script fails with `NotFoundError("character", 42)` and no
sleeps. -/
theorem c3_witness :
    makeRequest resps404 (("character".data) ++ '/' :: natToStr 42) 3
      = (some (.error (.notFound ("character".data) (some 42))), []) :=
  c3_fetch_one_vs_fetch_all_404.1 resps404 ("character".data) 42 2 none emptyBody
    (by decide) rfl

/-- C9: the `try/except NotFoundError` of `get_all_resources`
surrounds the entire pagination loop: a 404 on any page request — at
any call index, with any accumulated results — makes the whole call
return `[]`, discarding what was already accumulated.  Concretely, a
first page of 20 results followed by a 404 on page 2 yields `[]`. -/
theorem c9_not_found_discards_accumulated :
    (∀ (env : ℕ → ℕ → Resp) (mr callIdx fuel : ℕ) (acc : List ℕ) (u rt : List Char)
        (rid : Option ℕ),
        u ≠ [] →
        (makeRequest (env callIdx) u mr).1 = some (.error (.notFound rt rid)) →
        getAllGo env mr callIdx acc (some u) (fuel + 1) = .ok [])
    ∧ get_all_resources secondPage404Env 3 ("character".data) 10 = .ok []
    ∧ getAllGo secondPage404Env 3 1 (List.range' 0 20) (some ("character?page=2".data)) 9
        = .ok [] := by
  refine ⟨?_, by decide, by decide⟩
  intro env mr callIdx fuel acc u rt rid hu hmk
  simp [getAllGo, hu, hmk]

/-- Witness for C9 at a concrete input: a 404 at call index 1 with a
nonempty accumulator still returns `[]`. -/
theorem c9_witness :
    getAllGo secondPage404Env 3 1 [9, 9, 9] (some ("x".data)) 1 = .ok [] :=
  c9_not_found_discards_accumulated.1 secondPage404Env 3 1 0 [9, 9, 9] ("x".data)
    ("x".data) none (by decide) (by decide)

/-- Normal form of one `is_rate_limited` call: the state updates
collapse to a single assignment on the original map. -/
theorem is_rate_limited_eq (rl : SimpleRateLimiter) (now : ℤ) (ip : String) :
    rl.is_rate_limited now ip
      = if rl.requests_per_minute ≤ (pruneWindow now ((lookupIp rl.requests ip).getD [])).length
        then
          (true, ⟨rl.requests_per_minute,
            setIp rl.requests ip (pruneWindow now ((lookupIp rl.requests ip).getD []))⟩)
        else
          (false, ⟨rl.requests_per_minute,
            if now % 300 < 1 then
              SimpleRateLimiter.cleanup now
                (setIp rl.requests ip (pruneWindow now ((lookupIp rl.requests ip).getD []) ++ [now]))
            else
              setIp rl.requests ip
                (pruneWindow now ((lookupIp rl.requests ip).getD []) ++ [now])⟩) := by
  simp only [SimpleRateLimiter.is_rate_limited, lookupIp_initIp_self, Option.getD_some,
    setIp_initIp, setIp_setIp]

/-- C1: `is_rate_limited` admits a request iff, after pruning, fewer
than the configured limit of timestamps remain in the key's trailing
window (so at exactly the limit it rejects); a rejected call stores
only the pruned list, appending no timestamp, and therefore leaves
every future call's outcome and state unchanged; with exactly 30
requests admitted at t = 0 under the default limit 30, a request at
t = 59 is rejected and a request at t = 61 is admitted. -/
theorem c1_sliding_window_admission :
    (∀ (rl : SimpleRateLimiter) (now : ℤ) (ip : String),
        (rl.is_rate_limited now ip).1 = false
          ↔ (pruneWindow now ((lookupIp rl.requests ip).getD [])).length < rl.requests_per_minute)
    ∧ (∀ (rl : SimpleRateLimiter) (now : ℤ) (ip : String),
        (rl.is_rate_limited now ip).1 = true →
        (rl.is_rate_limited now ip).2
          = ⟨rl.requests_per_minute,
             setIp rl.requests ip (pruneWindow now ((lookupIp rl.requests ip).getD []))⟩)
    ∧ (∀ (rl : SimpleRateLimiter) (t1 t2 : ℤ) (ip : String),
        t1 ≤ t2 → (rl.is_rate_limited t1 ip).1 = true →
        ((rl.is_rate_limited t1 ip).2).is_rate_limited t2 ip = rl.is_rate_limited t2 ip)
    ∧ ((callsAllAllowed ⟨30, []⟩ 0 "k" 30).1 = true
        ∧ ((callsAllAllowed ⟨30, []⟩ 0 "k" 30).2.is_rate_limited 59 "k").1 = true
        ∧ ((callsAllAllowed ⟨30, []⟩ 0 "k" 30).2.is_rate_limited 61 "k").1 = false) := by
  refine ⟨?_, ?_, ?_, by decide, by decide, by decide⟩
  · intro rl now ip
    rw [is_rate_limited_eq]
    by_cases h : rl.requests_per_minute
        ≤ (pruneWindow now ((lookupIp rl.requests ip).getD [])).length
    · rw [if_pos h]; simp; omega
    · rw [if_neg h]; simp; omega
  · intro rl now ip h
    rw [is_rate_limited_eq] at h ⊢
    by_cases hc : rl.requests_per_minute
        ≤ (pruneWindow now ((lookupIp rl.requests ip).getD [])).length
    · rw [if_pos hc]
    · rw [if_neg hc] at h; simp at h
  · intro rl t1 t2 ip hle h
    rw [is_rate_limited_eq] at h
    by_cases hc : rl.requests_per_minute
        ≤ (pruneWindow t1 ((lookupIp rl.requests ip).getD [])).length
    · have hpost : (rl.is_rate_limited t1 ip).2
          = ⟨rl.requests_per_minute,
             setIp rl.requests ip (pruneWindow t1 ((lookupIp rl.requests ip).getD []))⟩ := by
        rw [is_rate_limited_eq, if_pos hc]
      rw [hpost, is_rate_limited_eq, is_rate_limited_eq]
      simp only [lookupIp_setIp_self, Option.getD_some,
        pruneWindow_pruneWindow t1 t2 _ hle, setIp_setIp]
    · rw [if_neg hc] at h; simp at h

/-- Witness for C1 at a concrete input: with limit 0 every call is
rejected, and a rejected call at t = 1 does not change the outcome or
state of the next call at t = 2. -/
theorem c1_witness :
    ((⟨0, []⟩ : SimpleRateLimiter).is_rate_limited 1 "k").2.is_rate_limited 2 "k"
      = (⟨0, []⟩ : SimpleRateLimiter).is_rate_limited 2 "k" :=
  c1_sliding_window_admission.2.2.1 ⟨0, []⟩ 1 2 "k" (by decide) (by decide)

/-- C6 (amended): pruning removes exactly the timestamps at least 60
seconds old (`now - ts ≥ 60` — so a timestamp exactly 60 seconds old
is removed, not retained), and after any `is_rate_limited` call the
stored sequence for that key contains only timestamps strictly within
the trailing 60-second window. -/
theorem c6_window_invariant :
    (∀ (now : ℤ) (l : List ℤ) (ts : ℤ), ts ∈ pruneWindow now l ↔ ts ∈ l ∧ now - ts < 60)
    ∧ (∀ (rl : SimpleRateLimiter) (now : ℤ) (ip : String) (ts : ℤ),
        ts ∈ (lookupIp (rl.is_rate_limited now ip).2.requests ip).getD [] → now - ts < 60) := by
  refine ⟨fun now l ts => mem_pruneWindow now ts l, ?_⟩
  intro rl now ip ts hmem
  rw [is_rate_limited_eq] at hmem
  by_cases hc : rl.requests_per_minute
      ≤ (pruneWindow now ((lookupIp rl.requests ip).getD [])).length
  · rw [if_pos hc] at hmem
    simp only [lookupIp_setIp_self, Option.getD_some] at hmem
    exact ((mem_pruneWindow now ts _).mp hmem).2
  · rw [if_neg hc] at hmem
    simp only at hmem
    by_cases ht : now % 300 < 1
    · rw [if_pos ht] at hmem
      have hmax : now ≤ pyMax (pruneWindow now ((lookupIp rl.requests ip).getD []) ++ [now]) :=
        le_pyMax _ now (by simp)
      have hkeep : (fun p : String × List ℤ => !(p.2.isEmpty || decide (300 < now - pyMax p.2)))
          (ip, pruneWindow now ((lookupIp rl.requests ip).getD []) ++ [now]) = true := by
        simp only [Bool.not_eq_true', Bool.or_eq_false_iff, decide_eq_false_iff_not, not_lt]
        constructor
        · simp
        · omega
      rw [show SimpleRateLimiter.cleanup now
            (setIp rl.requests ip (pruneWindow now ((lookupIp rl.requests ip).getD []) ++ [now]))
          = List.filter
              (fun p : String × List ℤ => !(p.2.isEmpty || decide (300 < now - pyMax p.2)))
              (setIp rl.requests ip
                (pruneWindow now ((lookupIp rl.requests ip).getD []) ++ [now])) from rfl,
        lookupIp_filter_setIp _ _ _ _ hkeep, Option.getD_some] at hmem
      rcases List.mem_append.mp hmem with hin | hin
      · exact ((mem_pruneWindow now ts _).mp hin).2
      · simp only [List.mem_singleton] at hin
        omega
    · rw [if_neg ht, lookupIp_setIp_self, Option.getD_some] at hmem
      rcases List.mem_append.mp hmem with hin | hin
      · exact ((mem_pruneWindow now ts _).mp hin).2
      · simp only [List.mem_singleton] at hin
        omega

/-- Witness for C6 at a concrete input: an admitted call at t = 5
stores timestamp 5, which is strictly within the window. -/
theorem c6_witness : (5 : ℤ) - 5 < 60 :=
  c6_window_invariant.2 ⟨30, []⟩ 5 "k" 5 (by decide)

/-- Counterexample for C6 as stated: the code keeps `ts` only when
`now - ts < 60`, so a timestamp exactly 60 seconds old is removed —
the call at t = 60 on a key holding timestamp 0 prunes it away and
stores `[60]` alone, where the claim predicts 0 is retained. -/
theorem c6_counterexample :
    pruneWindow 60 [0] = []
      ∧ ((SimpleRateLimiter.mk 30 [("k", [0])]).is_rate_limited 60 "k").2.requests
        = [("k", [60])]
      ∧ ¬ ((0 : ℤ) ∈ (lookupIp
            ((SimpleRateLimiter.mk 30 [("k", [0])]).is_rate_limited 60 "k").2.requests
            "k").getD []) := by
  exact ⟨by decide, by decide, by decide⟩

/-- C7: `_cleanup` deletes exactly the keys whose list is empty or
whose most recent timestamp (`max`, which is indeed the list maximum)
is more than 300 seconds old; it is triggered by an admitted call
whose instant satisfies `now % 300 < 1` (approximately a one-second
window once per 300-second interval), after which no idle key
remains in the state. -/
theorem c7_idle_cleanup :
    (∀ (now : ℤ) (m : ReqMap) (k : String) (l : List ℤ),
        (k, l) ∈ SimpleRateLimiter.cleanup now m
          ↔ (k, l) ∈ m ∧ l ≠ [] ∧ now - pyMax l ≤ 300)
    ∧ (∀ (rl : SimpleRateLimiter) (now : ℤ) (ip : String),
        (rl.is_rate_limited now ip).1 = false → now % 300 < 1 →
        ∀ (k : String) (l : List ℤ),
          (k, l) ∈ (rl.is_rate_limited now ip).2.requests →
          l ≠ [] ∧ now - pyMax l ≤ 300)
    ∧ (∀ l : List ℤ, l ≠ [] → pyMax l ∈ l ∧ ∀ ts ∈ l, ts ≤ pyMax l) := by
  have hpart1 : ∀ (now : ℤ) (m : ReqMap) (k : String) (l : List ℤ),
      (k, l) ∈ SimpleRateLimiter.cleanup now m
        ↔ (k, l) ∈ m ∧ l ≠ [] ∧ now - pyMax l ≤ 300 := by
    intro now m k l
    simp [SimpleRateLimiter.cleanup, List.mem_filter, Bool.not_eq_true',
      decide_eq_false_iff_not, not_lt, List.isEmpty_eq_false, and_assoc]
  refine ⟨hpart1, ?_, fun l h => ⟨pyMax_mem l h, fun ts hts => le_pyMax l ts hts⟩⟩
  intro rl now ip hfalse ht k l hmem
  rw [is_rate_limited_eq] at hfalse hmem
  by_cases hc : rl.requests_per_minute
      ≤ (pruneWindow now ((lookupIp rl.requests ip).getD [])).length
  · rw [if_pos hc] at hfalse; simp at hfalse
  · rw [if_neg hc] at hmem
    simp only at hmem
    rw [if_pos ht] at hmem
    exact ((hpart1 now _ k l).mp hmem).2

/-- Witness for C7 at a concrete input: an admitted call at t = 600
(a cleanup instant) leaves only fresh keys; the surviving entry
`("new", [600])` is nonempty and at most 300 seconds idle. -/
theorem c7_witness : ([600] : List ℤ) ≠ [] ∧ (600 : ℤ) - pyMax [600] ≤ 300 :=
  c7_idle_cleanup.2.1 ⟨30, [("old", [100])]⟩ 600 "new" (by decide) (by decide)
    "new" [600] (by decide)

/-- Every serialized filter part `k ++ '=' :: v` is nonempty, so the
joined query string of a nonempty part list is nonempty. -/
theorem serializeFilters_cons_ne_nil (k : List Char) (v : List Char)
    (rest : List (List Char × Option (List Char))) :
    serializeFilters ((k, some v) :: rest) ≠ [] := by
  unfold serializeFilters
  rw [List.filterMap_cons]
  simp only
  cases h : List.filterMap
      (fun p : List Char × Option (List Char) =>
        match p.2 with
        | some v => some (p.1 ++ '=' :: v)
        | none => none) rest with
  | nil =>
    simp only [pyJoin]
    cases k <;> simp
  | cons q qs =>
    simp only [pyJoin]
    cases k <;> simp

/-- C8 (amended): serialization omits the entries whose value is
`None`; and for filter mappings whose entries are all present, whose
keys contain neither `&` nor `=`, and whose values contain no `&`
(the code does no URL-escaping), parsing the query string back
reproduces the original mapping — in particular
`{name: "Rick", page: 2}` round-trips. -/
theorem c8_filter_roundtrip :
    (∀ fs : List (List Char × Option (List Char)),
        serializeFilters fs = serializeFilters (fs.filter (fun p => p.2.isSome)))
    ∧ (∀ fs : List (List Char × Option (List Char)),
        (∀ p ∈ fs, '&' ∉ p.1 ∧ '=' ∉ p.1 ∧ '&' ∉ p.2.getD []) →
        (∀ p ∈ fs, p.2.isSome = true) →
        parseQuery (serializeFilters fs) = fs)
    ∧ parseQuery (serializeFilters
          [("name".data, some ("Rick".data)), ("page".data, some ("2".data))])
        = [("name".data, some ("Rick".data)), ("page".data, some ("2".data))] := by
  refine ⟨?_, ?_, by decide⟩
  · intro fs
    unfold serializeFilters
    congr 1
    induction fs with
    | nil => rfl
    | cons p rest ih =>
      cases hv : p.2 with
      | none => simpa [List.filterMap_cons, List.filter_cons, hv] using ih
      | some v => simpa [List.filterMap_cons, List.filter_cons, hv] using ih
  · intro fs
    induction fs with
    | nil => intro _ _; rfl
    | cons p rest ih =>
      intro hsep hsome
      obtain ⟨k, v0⟩ := p
      cases v0 with
      | none =>
        have := hsome (k, none) (List.mem_cons_self _ _)
        simp at this
      | some v =>
        have hk0 := hsep (k, some v) (List.mem_cons_self _ _)
        have hk : '&' ∉ k ∧ '=' ∉ k ∧ '&' ∉ v := by
          simpa only [Option.getD_some] using hk0
        have hnab : '&' ∉ k ++ '=' :: v := by
          intro hmem
          rcases List.mem_append.mp hmem with hin | hin
          · exact hk.1 hin
          · rcases List.mem_cons.mp hin with heq | hin
            · exact absurd heq (by decide)
            · exact hk.2.2 hin
        have hpart : splitFirst '=' (k ++ '=' :: v) = some (k, v) :=
          splitFirst_append '=' k v hk.2.1
        cases rest with
        | nil =>
          have hser : serializeFilters [(k, some v)] = k ++ '=' :: v := by
            simp [serializeFilters, List.filterMap_cons, pyJoin]
          rw [hser]
          have hne : k ++ '=' :: v ≠ [] := by cases k <;> simp
          rw [parseQuery, if_neg hne, pySplit_of_not_mem '&' _ hnab]
          simp [hpart]
        | cons r rs =>
          obtain ⟨k1, v1⟩ := r
          cases hv1 : v1 with
          | none =>
            have := hsome (k1, v1) (List.mem_cons_of_mem _ (List.mem_cons_self _ _))
            simp [hv1] at this
          | some w1 =>
            subst hv1
            have hser : serializeFilters ((k, some v) :: (k1, some w1) :: rs)
                = (k ++ '=' :: v) ++ '&' :: serializeFilters ((k1, some w1) :: rs) := by
              simp [serializeFilters, List.filterMap_cons, pyJoin]
            have hrest : parseQuery (serializeFilters ((k1, some w1) :: rs))
                = (k1, some w1) :: rs :=
              ih (fun p h => hsep p (List.mem_cons_of_mem _ h))
                (fun p h => hsome p (List.mem_cons_of_mem _ h))
            have hrne : serializeFilters ((k1, some w1) :: rs) ≠ [] :=
              serializeFilters_cons_ne_nil k1 w1 rs
            have hne : (k ++ '=' :: v) ++ '&' :: serializeFilters ((k1, some w1) :: rs)
                ≠ [] := by cases k <;> simp
            rw [hser, parseQuery, if_neg hne, pySplit_append '&' _ _ hnab]
            rw [parseQuery, if_neg hrne] at hrest
            simp only [List.map_cons, hpart, hrest]

/-- Witness for C8 at a concrete input: the claim's own example
`{name: "Rick", page: 2}` satisfies the separator-freedom hypotheses
and round-trips. -/
theorem c8_witness :
    parseQuery (serializeFilters
        [("name".data, some ("Rick".data)), ("page".data, some ("2".data))])
      = [("name".data, some ("Rick".data)), ("page".data, some ("2".data))] :=
  c8_filter_roundtrip.2.1
    [("name".data, some ("Rick".data)), ("page".data, some ("2".data))]
    (by decide) (by decide)

/-- Counterexample for C8 as stated: values are not escaped, so a
value containing `&` (or a mapping with a `None` entry) does not parse
back to the original mapping: `{a: "1&b=2"}` serializes to
`a=1&b=2`, which parses as `{a: "1", b: "2"}`. -/
theorem c8_counterexample :
    serializeFilters [("a".data, some ("1&b=2".data))] = "a=1&b=2".data
      ∧ parseQuery ("a=1&b=2".data)
        = [("a".data, some ("1".data)), ("b".data, some ("2".data))]
      ∧ parseQuery (serializeFilters [("a".data, some ("1&b=2".data))])
        ≠ [("a".data, some ("1&b=2".data))] := by
  exact ⟨by decide, by decide, by decide⟩

/-- C5 (amended): for successful page responses, `get_all_resources`
appends each page's results to the accumulator strictly in
upstream-reported order, derives the next endpoint by deleting every
occurrence of the base-URL-plus-slash substring from the `"next"` link
(`str.replace`, which coincides with stripping the base URL prefix
whenever the link is the base URL followed by an endpoint containing
no further occurrence of it), stops when `"next"` is absent, and stops
returning the accumulated results when a response lacks a `"results"`
field; three pages of 20 results each with next links on pages 1 and 2
only yield the 60-element in-order concatenation. -/
theorem c5_pagination_in_order :
    (∀ (env : ℕ → ℕ → Resp) (mr callIdx fuel : ℕ) (acc rs : List ℕ) (u np : List Char)
        (data : Body),
        u ≠ [] →
        (makeRequest (env callIdx) u mr).1 = some (.ok data) →
        data.results = some rs → data.next = some np → np ≠ [] →
        getAllGo env mr callIdx acc (some u) (fuel + 1)
          = getAllGo env mr (callIdx + 1) (acc ++ rs)
              (some (pyReplace np (BASE_URL ++ ['/']) [])) fuel)
    ∧ (∀ (env : ℕ → ℕ → Resp) (mr callIdx fuel : ℕ) (acc rs : List ℕ) (u : List Char)
        (data : Body),
        u ≠ [] →
        (makeRequest (env callIdx) u mr).1 = some (.ok data) →
        data.results = some rs → data.next = none →
        getAllGo env mr callIdx acc (some u) (fuel + 2) = .ok (acc ++ rs))
    ∧ (∀ (env : ℕ → ℕ → Resp) (mr callIdx fuel : ℕ) (acc : List ℕ) (u : List Char)
        (data : Body),
        u ≠ [] →
        (makeRequest (env callIdx) u mr).1 = some (.ok data) →
        data.results = none →
        getAllGo env mr callIdx acc (some u) (fuel + 1) = .ok acc)
    ∧ (∀ e : List Char,
        (∀ i < e.length, (BASE_URL ++ ['/']).isPrefixOf (e.drop i) = false) →
        pyReplace ((BASE_URL ++ ['/']) ++ e) (BASE_URL ++ ['/']) [] = e
          ∧ specStripBase ((BASE_URL ++ ['/']) ++ e) = e)
    ∧ (get_all_resources pages3Env 3 ("character".data) 10 = .ok (List.range' 0 60)
        ∧ (List.range' 0 60).length = 60
        ∧ List.range' 0 60 = List.range' 0 20 ++ List.range' 20 20 ++ List.range' 40 20) := by
  refine ⟨?_, ?_, ?_, ?_, by decide, by decide, by decide⟩
  · intro env mr callIdx fuel acc rs u np data hu hmk hrs hnp hne
    simp [getAllGo, hu, hmk, hrs, hnp, hne]
  · intro env mr callIdx fuel acc rs u data hu hmk hrs hnp
    simp [getAllGo, hu, hmk, hrs, hnp]
  · intro env mr callIdx fuel acc u data hu hmk hrs
    simp [getAllGo, hu, hmk, hrs]
  · intro e he
    refine ⟨pyReplace_strip _ _ (by decide) he, ?_⟩
    have hpre : (BASE_URL ++ ['/']).isPrefixOf ((BASE_URL ++ ['/']) ++ e) = true := by
      rw [List.isPrefixOf_iff_prefix]; exact List.prefix_append _ e
    simp [specStripBase, hpre, List.drop_left]

/-- Counterexample for C5 as stated: on a `"next"` link in which the
base URL occurs again after the prefix, the code's
`next_page.replace(BASE_URL + "/", "")` deletes the inner occurrence
too, so the endpoint it uses is not the prefix-stripped link. -/
theorem c5_counterexample :
    pyReplace evilNext (BASE_URL ++ ['/']) [] = "abcdef".data
      ∧ specStripBase evilNext = "abchttps://rickandmortyapi.com/api/def".data
      ∧ pyReplace evilNext (BASE_URL ++ ['/']) [] ≠ specStripBase evilNext := by
  exact ⟨by decide, by decide, by decide⟩

/-- Witness for C5 at a concrete input: the well-formed second-page
link strips to `character?page=2` and coincides with prefix
stripping. -/
theorem c5_witness :
    pyReplace ((BASE_URL ++ ['/']) ++ "character?page=2".data) (BASE_URL ++ ['/']) []
        = "character?page=2".data
      ∧ specStripBase ((BASE_URL ++ ['/']) ++ "character?page=2".data)
        = "character?page=2".data :=
  c5_pagination_in_order.2.2.2.1 ("character?page=2".data) (by decide)
